import Mathlib

/-!
Verification of `src/js/apiCalls.js` of github-label-manager-plus.

The file shallowly embeds the functions of `apiCalls.js`: JavaScript objects
become association lists of string keys and `JsVal` values, the DOM form node
read by `serializeEntry` becomes an explicit `FormNode` record of the values
and attributes the source reads, the host timezone consulted by the `Date`
constructor becomes an explicit offset parameter, and the paginated fetch
becomes a function over the list of page bodies the server would answer with.
-/

set_option maxRecDepth 4000

/-- A JavaScript runtime value as it occurs in the records built by
`apiCalls.js`: strings, numbers, `null`, and `undefined`. -/
inductive JsVal : Type
  | str (s : String)
  | num (n : Int)
  | null
  | undef
deriving DecidableEq

/-- A JavaScript object, modelled as an association list of key/value pairs
in source order of the object literal. -/
abbrev JsObj := List (String × JsVal)

/-- Property read `o[k]`: the first binding of `k`, as JavaScript lookup
returns it. -/
def jsLookup : JsObj → String → Option JsVal
  | [], _ => none
  | kv :: rest, k => if kv.fst = k then some kv.snd else jsLookup rest k

/-- Property read that yields `undefined` for an absent key, as in JavaScript. -/
def jsGet (o : JsObj) (k : String) : JsVal :=
  (jsLookup o k).getD JsVal.undef

/-- The `delete o[k]` statement: removes every binding of the key. -/
def jsDelete (o : JsObj) (k : String) : JsObj :=
  o.filter (fun kv => decide (kv.fst ≠ k))

/-- The key/value structure serialized by `JSON.stringify`: keys whose value
is `undefined` are dropped by the JSON serializer. -/
def jsonBody (o : JsObj) : JsObj :=
  o.filter (fun kv => decide (kv.snd ≠ JsVal.undef))

/-- Template-literal conversion of a value to a string, as in
a JavaScript interpolation of the value. -/
def jsToString : JsVal → String
  | JsVal.str s => s
  | JsVal.num n => toString n
  | JsVal.null => "null"
  | JsVal.undef => "undefined"

/-- Accumulate the value of a decimal digit sequence; `none` on a
non-digit character. -/
def parseDecimalAux : List Char → Nat → Option Nat
  | [], acc => some acc
  | c :: rest, acc =>
    if c.isDigit then parseDecimalAux rest (acc * 10 + (c.toNat - 48)) else none

/-- Parse a nonempty string of decimal digits. -/
def parseDecimal : List Char → Option Nat
  | [] => none
  | cs => parseDecimalAux cs 0

/-- Unary plus on a string, as applied by the source to decimal digit
strings (date and time components, the data-number attribute). Strings
that are not plain decimal integers give NaN in JavaScript; the claims
only exercise decimal inputs. -/
def jsUnaryPlus (s : String) : Int :=
  match parseDecimal s.data with
  | some n => Int.ofNat n
  | none => 0

/-- Split on a single-character separator, the JavaScript
`String.prototype.split` with the one-character separator strings the
source uses. -/
def splitOnCharAux (sep : Char) : List Char → List Char → List (List Char)
  | [], acc => [acc.reverse]
  | c :: rest, acc =>
    if c == sep then acc.reverse :: splitOnCharAux sep rest []
    else splitOnCharAux sep rest (c :: acc)

/-- The JavaScript `s.split(sep)` for a one-character separator. -/
def jsSplit (s : String) (sep : Char) : List String :=
  (splitOnCharAux sep s.data []).map (fun l => ⟨l⟩)

/-- Civil date to days since the Unix epoch (the day arithmetic performed by
the `Date(year, month, day, ...)` constructor, months counted 1..12 here). -/
def daysFromCivil (y m d : Int) : Int :=
  let yAdj := if m ≤ 2 then y - 1 else y
  let era := yAdj.ediv 400
  let yoe := yAdj - era * 400
  let mp := (m + 9).emod 12
  let doy := (153 * mp + 2).ediv 5 + d - 1
  let doe := yoe * 365 + yoe.ediv 4 - yoe.ediv 100 + doy
  era * 146097 + doe - 719468

/-- Days since the Unix epoch back to a civil date, used by the rendering in
`Date.prototype.toISOString`. -/
def civilFromDays (z0 : Int) : Int × Int × Int :=
  let z := z0 + 719468
  let era := z.ediv 146097
  let doe := z - era * 146097
  let yoe := (doe - doe.ediv 1460 + doe.ediv 36524 - doe.ediv 146096).ediv 365
  let y := yoe + era * 400
  let doy := doe - (365 * yoe + yoe.ediv 4 - yoe.ediv 100)
  let mp := (5 * doy + 2).ediv 153
  let d := doy - (153 * mp + 2).ediv 5 + 1
  let m := mp + (if mp < 10 then 3 else -9)
  (if m ≤ 2 then y + 1 else y, m, d)

/-- Left-pad the decimal rendering of a nonnegative number to two digits. -/
def pad2 (n : Int) : String :=
  if n < 10 then "0" ++ toString n else toString n

/-- Left-pad the decimal rendering of a nonnegative number to three digits. -/
def pad3 (n : Int) : String :=
  if n < 10 then "00" ++ toString n
  else if n < 100 then "0" ++ toString n
  else toString n

/-- Left-pad the decimal rendering of a nonnegative number to four digits. -/
def pad4 (n : Int) : String :=
  if n < 10 then "000" ++ toString n
  else if n < 100 then "00" ++ toString n
  else if n < 1000 then "0" ++ toString n
  else toString n

/-- Whether the second list is an initial segment of the first. -/
def startsWith : List Char → List Char → Bool
  | _, [] => true
  | [], _ :: _ => false
  | c :: s, p :: ps => c == p && startsWith s ps

/-- Replace the first occurrence of a pattern, the behavior of the JavaScript
`String.prototype.replace` with a string pattern; the input is returned
unchanged when the pattern does not occur. -/
def replaceFirstAux : List Char → List Char → List Char → List Char
  | [], _, _ => []
  | c :: rest, pat, rep =>
    if startsWith (c :: rest) pat then rep ++ (c :: rest).drop pat.length
    else c :: replaceFirstAux rest pat rep

/-- The JavaScript `s.replace(pat, rep)` for a string pattern. -/
def jsReplace (s pat rep : String) : String :=
  ⟨replaceFirstAux s.data pat.data rep.data⟩

/-- Whether the pattern occurs as a contiguous sublist. -/
def listContainsSub : List Char → List Char → Bool
  | [], pat => startsWith [] pat
  | c :: rest, pat => startsWith (c :: rest) pat || listContainsSub rest pat

/-- Whether the pattern string occurs as a substring. -/
def strContains (s pat : String) : Bool :=
  listContainsSub s.data pat.data

/-- The `Date.prototype.toISOString` rendering of an epoch instant in
milliseconds: UTC components with a literal Z suffix and a three-digit
milliseconds field. -/
def toISOString (ms : Int) : String :=
  let days := ms.ediv 86400000
  let rem := ms.emod 86400000
  let c := civilFromDays days
  let hh := rem.ediv 3600000
  let mm := (rem.emod 3600000).ediv 60000
  let ss := (rem.emod 60000).ediv 1000
  let mmm := rem.emod 1000
  pad4 c.fst ++ "-" ++ pad2 c.snd.fst ++ "-" ++ pad2 c.snd.snd ++ "T" ++
    pad2 hh ++ ":" ++ pad2 mm ++ ":" ++ pad2 ss ++ "." ++ pad3 mmm ++ "Z"

/-- The `formatDate` function of apiCalls.js. `dateVal` is the `value` of the
due-date input, `timeAttr` its `data-orig-time` attribute (`none` when the
attribute is absent, in which case `getAttribute` returns `null`). The
`Date(year, month, day, hour, minute, second)` constructor interprets its
components in the local timezone of the host, made explicit here as `tz`,
the offset east of UTC in minutes; `toISOString` then renders the instant
in UTC, and the source strips a zero milliseconds field with
`replace(".000Z", "Z")`. Years 0..99 would be mapped to 1900..1999 by the
constructor; the date inputs of the UI always carry four-digit years. -/
def formatDate (dateVal : String) (timeAttr : Option String) (tz : Int) :
    Option String :=
  if dateVal = "" then none
  else
    let dparts := (jsSplit dateVal '-').map jsUnaryPlus
    let year := dparts.getD 0 0
    let month := dparts.getD 1 0
    let dayOfMonth := dparts.getD 2 0
    let tparts :=
      match timeAttr with
      | some t => if t = "" then [0, 0, 0] else (jsSplit t ':').map jsUnaryPlus
      | none => [0, 0, 0]
    let hour := tparts.getD 0 0
    let minute := tparts.getD 1 0
    let second := tparts.getD 2 0
    let epochMs :=
      (daysFromCivil year month dayOfMonth * 86400 +
        hour * 3600 + minute * 60 + second - tz * 60) * 1000
    some (jsReplace (toISOString epochMs) ".000Z" "Z")

/-- The credentials record supplied by `getLoginInfo` of dataValidation.js
(an external collaborator of the core; only the fields read by apiCalls.js
are modelled). -/
structure LoginInfo : Type where
  gitHubUsername : String
  personalAccessToken : String
  homeRepoOwner : String
  homeRepoName : String
  templateRepoOwner : String
  templateRepoName : String
deriving DecidableEq

/-- Modelled from the spec: the `base64` module imported by apiCalls.js is
not under src; section 6 of the spec describes Basic authentication as
`base64(username:token)`, so this is standard base64 of the UTF-8 bytes
without padding subtleties beyond the usual `=` fill. -/
def base64encode (s : String) : String :=
  let alphabet :=
    "ABCDEFGHIJKLMNOPQRSTUVWXYZabcdefghijklmnopqrstuvwxyz0123456789+/".data
  let enc (n : Nat) : Char := alphabet.getD n 'A'
  let rec go : List Nat → List Char
    | [] => []
    | [b0] =>
      [enc (b0 / 4), enc (b0 % 4 * 16), '=', '=']
    | [b0, b1] =>
      [enc (b0 / 4), enc (b0 % 4 * 16 + b1 / 16), enc (b1 % 16 * 4), '=']
    | b0 :: b1 :: b2 :: rest =>
      enc (b0 / 4) :: enc (b0 % 4 * 16 + b1 / 16) ::
        enc (b1 % 16 * 4 + b2 / 64) :: enc (b2 % 64) :: go rest
  ⟨go (s.toUTF8.toList.map UInt8.toNat)⟩

/-- The `makeBasicAuth` function of apiCalls.js. -/
def makeBasicAuth (loginInfo : LoginInfo) : String :=
  "Basic " ++
    base64encode
      (loginInfo.gitHubUsername ++ ":" ++ loginInfo.personalAccessToken)

/-- An HTTP response as read by apiCalls.js: the status code and status
text of the Fetch API response object. -/
structure Response : Type where
  status : Nat
  statusText : String
deriving DecidableEq

/-- The `ok` field of a Fetch API response; the Fetch standard defines it
as the status lying in the range 200..299. -/
def Response.ok (r : Response) : Bool :=
  200 ≤ r.status && r.status ≤ 299

/-- The `composeStatusMessage` function of apiCalls.js. -/
def composeStatusMessage (response : Response) : String :=
  if response.ok then
    toString response.status ++ " status OK."
  else if response.status = 401 then
    toString response.status ++ " " ++ response.statusText ++ "." ++
      " Please check the input values of your login information."
  else if response.status = 403 then
    toString response.status ++ " " ++ response.statusText ++ "." ++
      " The GitHub server refused to your request." ++
      " Maybe you have exceeded your rate limit." ++
      " Please wait for a little while."
  else if response.status = 404 then
    toString response.status ++ " " ++ response.statusText ++ "." ++
      " Repository not found. Please check the input values of your" ++
      " login information."
  else
    toString response.status ++ " " ++ response.statusText ++ "." ++
      " Error occurred."

/-- The `urlForGet` function of apiCalls.js. -/
def urlForGet (loginInfo : LoginInfo) (kind : String) (pageNum : Nat)
    (mode : String) : String :=
  let owner :=
    if mode = "list" then loginInfo.homeRepoOwner
    else loginInfo.templateRepoOwner
  let repo :=
    if mode = "list" then loginInfo.homeRepoName
    else loginInfo.templateRepoName
  let url :=
    "https://api.github.com/repos/" ++ owner ++ "/" ++ repo ++ "/" ++ kind ++
      "?per_page=20" ++ "&page=" ++ toString pageNum
  if kind = "milestones" then url ++ "&state=all" else url

/-- The `urlForCreate` function of apiCalls.js. -/
def urlForCreate (loginInfo : LoginInfo) (kind : String) : String :=
  "https://api.github.com/repos/" ++ loginInfo.homeRepoOwner ++ "/" ++
    loginInfo.homeRepoName ++ "/" ++ kind

/-- The `urlForUpdate` function of apiCalls.js. The apiCallSign received
from `packEntry` is a string for labels and a number for milestones; the
template literal stringifies it and appends it verbatim. -/
def urlForUpdate (loginInfo : LoginInfo) (kind : String) (apiCallSign : JsVal) :
    String :=
  "https://api.github.com/repos/" ++ loginInfo.homeRepoOwner ++ "/" ++
    loginInfo.homeRepoName ++ "/" ++ kind ++ "/" ++ jsToString apiCallSign

/-- The `urlForDelete` function of apiCalls.js, textually identical to
`urlForUpdate`. -/
def urlForDelete (loginInfo : LoginInfo) (kind : String) (apiCallSign : JsVal) :
    String :=
  "https://api.github.com/repos/" ++ loginInfo.homeRepoOwner ++ "/" ++
    loginInfo.homeRepoName ++ "/" ++ kind ++ "/" ++ jsToString apiCallSign

/-- Modelled from the spec: `validateKind` is imported from
dataValidation.js, which is not under src. Sections 4.1 and 7 of the spec
say it fails with a `ValidationError` exactly when the kind is not one of
the two supported kinds, labels and milestones. -/
def validKind (kind : String) : Bool :=
  kind == "labels" || kind == "milestones"

/-- Modelled from the spec: the message of the `ValidationError` thrown by
`validateKind` of dataValidation.js (not under src) for an unsupported
kind; the callers in apiCalls.js write the caught error to the log. -/
def validateKindError (kind : String) : String :=
  "ValidationError: " ++ kind ++ " is not a valid kind of entries."

/-- The values and attributes `serializeEntry` reads from the entry form
node: each field is the `value` of the correspondingly named input or the
named attribute. `titleOrig` and `nameOrig` are the `data-orig-val`
attributes (`getAttribute` yields `null`, modelled `none`, when absent);
`dueDateTime` is the `data-orig-time` attribute of the due-date input;
`dataNumber` is the `data-number` attribute of the node, which the UI sets
to the literal string `null` for a new milestone. -/
structure FormNode : Type where
  nameValue : String
  nameOrig : Option String
  colorValue : String
  descriptionValue : String
  titleValue : String
  titleOrig : Option String
  stateValue : String
  dueDateValue : String
  dueDateTime : Option String
  dataNumber : String
deriving DecidableEq

/-- A `getAttribute` result as a JavaScript value: the attribute string, or
`null` when the attribute is absent. -/
def attrVal : Option String → JsVal
  | some s => JsVal.str s
  | none => JsVal.null

/-- The value of `formatDate` as a JavaScript value: the formatted string,
or `null` when no date was supplied. -/
def optStr : Option String → JsVal
  | some s => JsVal.str s
  | none => JsVal.null

/-- The `serializeEntry` function of apiCalls.js. Returns `none` when
`validateKind` throws (the source logs the error and returns undefined).
For a label it collects name, original name, color with the leading `#`
removed by `slice(1)`, and description. For a milestone it branches on the
`data-number` attribute: an existing milestone additionally carries the
original title and the server-assigned number; a new milestone with a due
date carries title, state, description and due date; a new milestone
without a due date reads the misspelled property `valie` of the state
input, which is undefined in JavaScript, instead of its `value`. -/
def serializeEntry (node : FormNode) (kind : String) (tz : Int) :
    Option JsObj :=
  if validKind kind = false then none
  else if kind = "labels" then
    some [("name", JsVal.str node.nameValue),
          ("originalName", attrVal node.nameOrig),
          ("color", JsVal.str (node.colorValue.drop 1)),
          ("description", JsVal.str node.descriptionValue)]
  else if node.dataNumber ≠ "null" then
    some [("title", JsVal.str node.titleValue),
          ("originalTitle", attrVal node.titleOrig),
          ("state", JsVal.str node.stateValue),
          ("description", JsVal.str node.descriptionValue),
          ("due_on", optStr (formatDate node.dueDateValue node.dueDateTime tz)),
          ("number", JsVal.num (jsUnaryPlus node.dataNumber))]
  else if node.dueDateValue ≠ "" then
    some [("title", JsVal.str node.titleValue),
          ("state", JsVal.str node.stateValue),
          ("description", JsVal.str node.descriptionValue),
          ("due_on", optStr (formatDate node.dueDateValue node.dueDateTime tz))]
  else
    some [("title", JsVal.str node.titleValue),
          ("state", JsVal.undef),
          ("description", JsVal.str node.descriptionValue)]

/-- The object returned by `packEntry`: the request body and the names
record with the original name, the new name and the apiCallSign. -/
structure EntryPackage : Type where
  body : JsObj
  names : JsObj
deriving DecidableEq

/-- The `packEntry` function of apiCalls.js, with its heap effect made
explicit. The source binds `entryObjectCopy` to the argument object itself
(a reference copy, not a clone), reads the identity fields into the names
record, and then deletes `originalName` (labels) or `originalTitle`
(milestones) from that shared object. The first component is the returned
package; the second is the callers object after the call, which aliases
the returned body. -/
def packEntry (serializedEntry : JsObj) (kind : String) :
    EntryPackage × JsObj :=
  let entryObjectCopy := serializedEntry
  if kind = "labels" then
    let names : JsObj :=
      [("originalName", jsGet entryObjectCopy "originalName"),
       ("newName", jsGet entryObjectCopy "name"),
       ("apiCallSign", jsGet entryObjectCopy "originalName")]
    let mutated := jsDelete entryObjectCopy "originalName"
    (⟨mutated, names⟩, mutated)
  else
    let names : JsObj :=
      [("originalName", jsGet entryObjectCopy "originalTitle"),
       ("newName", jsGet entryObjectCopy "title"),
       ("apiCallSign", jsGet entryObjectCopy "number")]
    let mutated := jsDelete entryObjectCopy "originalTitle"
    (⟨mutated, names⟩, mutated)

/-- An outbound HTTP request as assembled by the fetch wrappers of
apiCalls.js. The body is the key/value structure passed to
`JSON.stringify`, recorded after the stringify drop of undefined values;
`none` for the bodiless GET and DELETE requests. -/
structure Request : Type where
  url : String
  method : String
  authorization : String
  accept : String
  body : Option JsObj
deriving DecidableEq

/-- The `fetchCreate` function of apiCalls.js: the request it issues. -/
def fetchCreate (getUrl : LoginInfo → String → String)
    (loginInfo : LoginInfo) (kind : String) (entryPackage : EntryPackage) :
    Request :=
  ⟨getUrl loginInfo kind, "POST", makeBasicAuth loginInfo,
    "application/vnd.github.v3+json", some (jsonBody entryPackage.body)⟩

/-- The `fetchUpdate` function of apiCalls.js: the request it issues, a
PATCH to the update URL for the apiCallSign of the package. -/
def fetchUpdate (getUrl : LoginInfo → String → JsVal → String)
    (loginInfo : LoginInfo) (kind : String) (entryPackage : EntryPackage) :
    Request :=
  ⟨getUrl loginInfo kind (jsGet entryPackage.names "apiCallSign"), "PATCH",
    makeBasicAuth loginInfo, "application/vnd.github.v3+json",
    some (jsonBody entryPackage.body)⟩

/-- The `fetchDelete` function of apiCalls.js: the request it issues, a
bodiless DELETE to the delete URL for the apiCallSign of the package. -/
def fetchDelete (getUrl : LoginInfo → String → JsVal → String)
    (loginInfo : LoginInfo) (kind : String) (entryPackage : EntryPackage) :
    Request :=
  ⟨getUrl loginInfo kind (jsGet entryPackage.names "apiCallSign"), "DELETE",
    makeBasicAuth loginInfo, "application/vnd.github.v3+json", none⟩

/-- The `apiCallCreate` function of apiCalls.js, as the pair of the
requests it issues and the log lines it writes. When `validateKind`
throws, the error is logged and no request is made. Otherwise one POST is
issued; the source computes `composeStatusMessage` on a non-ok response
but discards the result, so the created log line is written regardless of
the response, and transport-level rejection is outside this model. The
unreachable inner `none` arm covers the serializer output for a kind
already validated above. -/
def apiCallCreate (entryNode : FormNode) (kind : String)
    (loginInfo : LoginInfo) (tz : Int) : List Request × List String :=
  if validKind kind = false then ([], [validateKindError kind])
  else
    match serializeEntry entryNode kind tz with
    | none => ([], [])
    | some serializedEntry =>
      let entryPackage := (packEntry serializedEntry kind).fst
      let kindSingular := kind.dropRight 1
      ([fetchCreate urlForCreate loginInfo kind entryPackage],
       ["Created " ++ kindSingular ++ ": " ++
          jsToString (jsGet entryPackage.names "newName") ++ "."])

/-- The `apiCallUpdate` function of apiCalls.js, as the pair of the
requests it issues and the log lines it writes; the same structure as
`apiCallCreate` with a PATCH request and the update log line. -/
def apiCallUpdate (entryNode : FormNode) (kind : String)
    (loginInfo : LoginInfo) (tz : Int) : List Request × List String :=
  if validKind kind = false then ([], [validateKindError kind])
  else
    match serializeEntry entryNode kind tz with
    | none => ([], [])
    | some serializedEntry =>
      let entryPackage := (packEntry serializedEntry kind).fst
      let kindSingular := kind.dropRight 1
      ([fetchUpdate urlForUpdate loginInfo kind entryPackage],
       ["Updated " ++ kindSingular ++ ": " ++
          jsToString (jsGet entryPackage.names "originalName") ++
          " &#8680; " ++ jsToString (jsGet entryPackage.names "newName") ++
          "."])

/-- The `apiCallDelete` function of apiCalls.js, as the pair of the
requests it issues and the log lines it writes; the same structure as
`apiCallCreate` with a DELETE request and the deleted log line. -/
def apiCallDelete (entryNode : FormNode) (kind : String)
    (loginInfo : LoginInfo) (tz : Int) : List Request × List String :=
  if validKind kind = false then ([], [validateKindError kind])
  else
    match serializeEntry entryNode kind tz with
    | none => ([], [])
    | some serializedEntry =>
      let entryPackage := (packEntry serializedEntry kind).fst
      let kindSingular := kind.dropRight 1
      ([fetchDelete urlForDelete loginInfo kind entryPackage],
       ["Deleted " ++ kindSingular ++ ": " ++
          jsToString (jsGet entryPackage.names "originalName") ++ "."])

/-- One page answered by the server to the paginated GET: the HTTP response
and, when the response is ok, its JSON body, a list of records. -/
structure HttpPage (α : Type) : Type where
  resp : Response
  body : List α
deriving DecidableEq

/-- A successful page with the given body. -/
def okPage {α : Type} (body : List α) : HttpPage α :=
  ⟨⟨200, "OK"⟩, body⟩

/-- The rejection message of `apiCallGet` for an empty first page. -/
def noEntriesMsg (kind : String) : String :=
  "No " ++ kind ++ " exist in this repository."

/-- The `apiCallGet` function of apiCalls.js over the successive pages the
server would answer with, starting at `pageNum`; the result carries the
number of GET requests issued. A non-ok response throws the composed
status message; an empty body rejects with the no-entries message on page
one and resolves the empty list otherwise; a non-empty body is
concatenated in front of the recursive call with the incremented page
number. GitHub answers requests past the last page with an empty body, so
an exhausted page list stands for an empty response. An error of the
recursive call propagates: the await rethrows it into the catch, which
rejects the outer promise with it. -/
def apiCallGet {α : Type} (kind : String) :
    List (HttpPage α) → Nat → Except String (List α) × Nat
  | [], pageNum =>
    (if pageNum = 1 then Except.error (noEntriesMsg kind) else Except.ok [], 1)
  | pg :: rest, pageNum =>
    if pg.resp.ok = false then (Except.error (composeStatusMessage pg.resp), 1)
    else if pg.body.length = 0 then
      (if pageNum = 1 then Except.error (noEntriesMsg kind) else Except.ok [],
        1)
    else
      match apiCallGet kind rest (pageNum + 1) with
      | (Except.error e, n) => (Except.error e, n + 1)
      | (Except.ok tail, n) => (Except.ok (pg.body ++ tail), n + 1)

/-- A serialized label entry as `serializeEntry` would produce it, used as a
concrete input to `packEntry`. -/
def labelEntryEx : JsObj :=
  [("name", JsVal.str "enhancement"), ("originalName", JsVal.str "feature"),
   ("color", JsVal.str "a2eeef"), ("description", JsVal.str "New feature")]

/-- A serialized existing-milestone entry as `serializeEntry` would produce
it, with the server-assigned number 7. -/
def milestoneEntryEx : JsObj :=
  [("title", JsVal.str "v1.0"), ("originalTitle", JsVal.str "v1"),
   ("state", JsVal.str "open"), ("description", JsVal.str ""),
   ("due_on", JsVal.null), ("number", JsVal.num 7)]

/-- A concrete credentials record. -/
def loginInfoEx : LoginInfo :=
  ⟨"octocat", "token123", "octocat", "hello-world", "octocat", "template"⟩

/-- The form node of a new milestone (data-number is the string null) whose
due-date input is empty. -/
def newMilestoneNodeEx : FormNode :=
  ⟨"", none, "", "Sprint goals", "v2.0", none, "open", "", none, "null"⟩

/-- The form node of a label entry. -/
def labelNodeEx : FormNode :=
  ⟨"bug", some "bug", "#d73a4a", "Something is broken", "", none, "", "",
    none, "null"⟩

theorem jsLookup_jsDelete_ne (o : JsObj) (k k2 : String) (h : k ≠ k2) :
    jsLookup (jsDelete o k2) k = jsLookup o k := by
  have h2 : k2 ≠ k := Ne.symm h
  induction o with
  | nil => rfl
  | cons kv rest ih =>
    by_cases hk : kv.fst = k2
    · simp [jsDelete, jsLookup, List.filter_cons, hk, h2] at ih ⊢
      exact ih
    · by_cases hke : kv.fst = k
      · simp [jsDelete, jsLookup, List.filter_cons, hk, hke, h]
      · simp [jsDelete, jsLookup, List.filter_cons, hk, hke] at ih ⊢
        exact ih

theorem jsLookup_jsDelete_self (o : JsObj) (k : String) :
    jsLookup (jsDelete o k) k = none := by
  induction o with
  | nil => rfl
  | cons kv rest ih =>
    by_cases hk : kv.fst = k
    · simpa [jsDelete, jsLookup, hk] using ih
    · simpa [jsDelete, jsLookup, hk] using ih

theorem jsLookup_jsonBody (o : JsObj) (k : String) (v : JsVal)
    (h : jsLookup o k = some v) (hv : v ≠ JsVal.undef) :
    jsLookup (jsonBody o) k = some v := by
  induction o with
  | nil => simp [jsLookup] at h
  | cons kv rest ih =>
    by_cases hk : kv.fst = k
    · simp [jsLookup, hk] at h
      subst h
      simp [jsonBody, jsLookup, hk, hv]
    · simp [jsLookup, hk] at h
      by_cases hu : kv.snd = JsVal.undef
      · simpa [jsonBody, jsLookup, hk, hu] using ih h
      · simpa [jsonBody, jsLookup, hk, hu] using ih h

theorem startsWith_append (a b p : List Char) (h : startsWith a p = true) :
    startsWith (a ++ b) p = true := by
  induction p generalizing a with
  | nil => simp [startsWith]
  | cons q ps ih =>
    cases a with
    | nil => simp [startsWith] at h
    | cons c cs =>
      simp [startsWith] at h ⊢
      exact ⟨h.1, ih cs h.2⟩

theorem listContainsSub_append_right (a b p : List Char)
    (h : listContainsSub b p = true) : listContainsSub (a ++ b) p = true := by
  induction a with
  | nil => simpa using h
  | cons c cs ih =>
    rw [List.cons_append]
    simp only [listContainsSub]
    simp [ih]

theorem startsWith_refl (l : List Char) : startsWith l l = true := by
  induction l with
  | nil => rfl
  | cons c cs ih => simp [startsWith, ih]

theorem listContainsSub_self (l : List Char) : listContainsSub l l = true := by
  cases l with
  | nil => rfl
  | cons c cs => simp [listContainsSub, startsWith_refl]

theorem listContainsSub_nil_pat (b : List Char) :
    listContainsSub b [] = true := by
  cases b with
  | nil => simp [listContainsSub, startsWith]
  | cons c cs => simp [listContainsSub, startsWith]

theorem listContainsSub_append_left (a b p : List Char)
    (h : listContainsSub a p = true) : listContainsSub (a ++ b) p = true := by
  induction a with
  | nil =>
    simp only [listContainsSub] at h
    cases p with
    | nil => simpa using listContainsSub_nil_pat b
    | cons q ps => simp [startsWith] at h
  | cons c cs ih =>
    simp only [listContainsSub] at h
    rw [List.cons_append]
    simp only [listContainsSub]
    rcases Bool.or_eq_true_iff.mp h with h1 | h1
    · exact Bool.or_eq_true_iff.mpr (Or.inl (startsWith_append _ b _ h1))
    · exact Bool.or_eq_true_iff.mpr (Or.inr (ih h1))

theorem strContains_append_right (s t pat : String)
    (h : strContains t pat = true) : strContains (s ++ t) pat = true := by
  unfold strContains at h ⊢
  rw [String.data_append]
  exact listContainsSub_append_right _ _ _ h

theorem strContains_append_left (s t pat : String)
    (h : strContains s pat = true) : strContains (s ++ t) pat = true := by
  unfold strContains at h ⊢
  rw [String.data_append]
  exact listContainsSub_append_left _ _ _ h

theorem apiCallGet_ok_of_ge_two {α : Type} (kind : String) :
    ∀ (pages : List (HttpPage α)) (pageNum : Nat), 2 ≤ pageNum →
      (∀ p ∈ pages, p.resp.ok = true) →
      ∃ l n, apiCallGet kind pages pageNum = (Except.ok l, n) := by
  intro pages
  induction pages with
  | nil =>
    intro pageNum h1 _
    have h2 : ¬ pageNum = 1 := by omega
    exact ⟨[], 1, by simp [apiCallGet, h2]⟩
  | cons pg rest ih =>
    intro pageNum h1 hok
    have h2 : ¬ pageNum = 1 := by omega
    have hpg : pg.resp.ok = true := hok pg (by simp)
    by_cases hb : pg.body.length = 0
    · exact ⟨[], 1, by simp [apiCallGet, hpg, hb, h2]⟩
    · obtain ⟨l, n, hl⟩ :=
        ih (pageNum + 1) (by omega) (fun p hp => hok p (by simp [hp]))
      exact ⟨pg.body ++ l, n + 1, by simp [apiCallGet, hpg, hb, hl]⟩

theorem apiCallGet_append_empty {α : Type} (kind : String) :
    ∀ (ps rest : List (HttpPage α)) (pageNum : Nat),
      (∀ p ∈ ps, p.resp.ok = true ∧ p.body ≠ []) →
      1 ≤ pageNum → (ps = [] → 2 ≤ pageNum) →
      apiCallGet kind (ps ++ okPage [] :: rest) pageNum
        = (Except.ok ((ps.map HttpPage.body).flatten), ps.length + 1) := by
  intro ps
  induction ps with
  | nil =>
    intro rest pageNum _ h1 h2
    have h3 := h2 rfl
    have h4 : ¬ pageNum = 1 := by omega
    simp [apiCallGet, okPage, Response.ok, h4]
  | cons pg ps ih =>
    intro rest pageNum hok h1 _
    obtain ⟨hpgok, hpgne⟩ := hok pg (by simp)
    have hb : ¬ pg.body.length = 0 := by simpa using hpgne
    have hr := ih rest (pageNum + 1)
      (fun p hp => hok p (by simp [hp])) (by omega) (fun _ => by omega)
    simp [apiCallGet, hpgok, hb, hr]

/-- C3: the claim says `packEntry` does not mutate the entry of the caller.
The source binds the alleged copy by reference and deletes the identity
field from it, so after packing a label entry the object of the caller has
lost its originalName binding; this theorem evaluates the embedded heap effect
at a concrete label entry: the post-state differs from the input, the
originalName binding is gone from the post-state, and it was present in
the input. -/
theorem packEntry_mutates_caller_entry :
    (packEntry labelEntryEx "labels").snd ≠ labelEntryEx
      ∧ jsLookup (packEntry labelEntryEx "labels").snd "originalName" = none
      ∧ jsLookup labelEntryEx "originalName" = some (JsVal.str "feature") := by
  decide

/-- C4 counterexample: `formatDate` builds the instant with the local-time
`Date` constructor, so in a host environment one hour east of UTC (offset
60 minutes) the date 2024-03-05 with time attribute 14:30:00 renders as
13:30 UTC, not as the 14:30:00Z instant the claim states. -/
theorem formatDate_offset_shifts_instant :
    formatDate "2024-03-05" (some "14:30:00") 60 = some "2024-03-05T13:30:00Z"
      ∧ formatDate "2024-03-05" (some "14:30:00") 60
          ≠ some "2024-03-05T14:30:00Z" := by
  decide

/-- C4 (amended): when the host timezone offset is zero, `formatDate` maps
date 2024-03-05 with time attribute 14:30:00 to exactly 2024-03-05T14:30:00Z,
maps the same date without a time attribute to midnight
2024-03-05T00:00:00Z, and maps an empty date value to null for any time
attribute. -/
theorem formatDate_utc_environment (tz : Int) (h : tz = 0)
    (attr : Option String) :
    formatDate "2024-03-05" (some "14:30:00") tz = some "2024-03-05T14:30:00Z"
      ∧ formatDate "2024-03-05" none tz = some "2024-03-05T00:00:00Z"
      ∧ formatDate "" attr tz = none := by
  subst h
  refine ⟨by decide, by decide, ?_⟩
  simp [formatDate]

/-- C4 witness: the amended claim at offset zero and an absent time
attribute. -/
theorem formatDate_utc_environment_witness :
    formatDate "2024-03-05" (some "14:30:00") 0 = some "2024-03-05T14:30:00Z"
      ∧ formatDate "2024-03-05" none 0 = some "2024-03-05T00:00:00Z"
      ∧ formatDate "" none 0 = none :=
  formatDate_utc_environment 0 rfl none

/-- C5 counterexample: the update and delete URL builders interpolate the
apiCallSign into the template literal without URL escaping: for the label
name with a space the final path segment is the verbatim name, not the
percent-encoded form the claim states. -/
theorem mutateUrl_not_escaped :
    urlForUpdate loginInfoEx "labels" (JsVal.str "help wanted")
        = "https://api.github.com/repos/octocat/hello-world/labels/help wanted"
      ∧ urlForUpdate loginInfoEx "labels" (JsVal.str "help wanted")
        ≠ "https://api.github.com/repos/octocat/hello-world/labels/help%20wanted"
      ∧ urlForDelete loginInfoEx "labels" (JsVal.str "help wanted")
        = "https://api.github.com/repos/octocat/hello-world/labels/help wanted" := by
  decide

/-- C5 (amended): for every credentials record, kind and apiCallSign, the
update and delete URL builders produce the home-repository URL whose final
path segment is the stringified apiCallSign appended verbatim, with no URL
escaping; the stringified sign occurs in the URL as is. -/
theorem mutateUrl_appends_sign_verbatim (loginInfo : LoginInfo)
    (kind : String) (apiCallSign : JsVal) :
    urlForUpdate loginInfo kind apiCallSign
        = "https://api.github.com/repos/" ++ loginInfo.homeRepoOwner ++ "/" ++
          loginInfo.homeRepoName ++ "/" ++ kind ++ "/" ++ jsToString apiCallSign
      ∧ urlForDelete loginInfo kind apiCallSign
        = "https://api.github.com/repos/" ++ loginInfo.homeRepoOwner ++ "/" ++
          loginInfo.homeRepoName ++ "/" ++ kind ++ "/" ++ jsToString apiCallSign
      ∧ strContains (urlForUpdate loginInfo kind apiCallSign)
          (jsToString apiCallSign) = true := by
  refine ⟨rfl, rfl, ?_⟩
  apply strContains_append_right
  exact listContainsSub_self (jsToString apiCallSign).data

/-- C6: the claim says a new milestone serialized without a due date
carries the state taken from the state input of the form. The source reads
the misspelled property valie of the state input in that branch, which is
undefined in JavaScript, so the serialized state is undefined rather than
the form value open, and JSON.stringify drops the key from the request
body; this theorem evaluates the embedded serializer at such a form
node. -/
theorem serializeEntry_new_milestone_state_undef :
    serializeEntry newMilestoneNodeEx "milestones" 0
        = some [("title", JsVal.str "v2.0"), ("state", JsVal.undef),
                ("description", JsVal.str "Sprint goals")]
      ∧ jsLookup (jsonBody [("title", JsVal.str "v2.0"),
            ("state", JsVal.undef),
            ("description", JsVal.str "Sprint goals")]) "state" = none
      ∧ newMilestoneNodeEx.stateValue = "open" := by
  decide

/-- C1 counterexample: when the server answers page 1 with an empty array
and no non-empty page precedes it — the page sequence consisting of the
single empty page, which satisfies the claim premise vacuously — the
collector does not return the concatenation of the pages (the empty list):
it rejects with the no-entries message. -/
theorem apiCallGet_single_empty_page_rejects :
    (apiCallGet "labels" [okPage ([] : List Nat)] 1).fst
        = Except.error "No labels exist in this repository."
      ∧ (apiCallGet "labels" [okPage ([] : List Nat)] 1).fst
        ≠ Except.ok (([] : List (List Nat)).flatten) := by
  refine ⟨rfl, ?_⟩
  intro h
  rw [show (apiCallGet "labels" [okPage ([] : List Nat)] 1).fst
      = Except.error "No labels exist in this repository." from rfl] at h
  exact Except.noConfusion h

/-- C1 (amended): for every sequence of successful pages in which at least
one non-empty page precedes the final empty page — every page before the
last is non-empty and the last is empty — collect starting at page 1
issues one GET per page and returns the concatenation of all pages in
server order, page 1 first; with no non-empty page before the empty one
the empty-first-page rejection of the source applies instead. -/
theorem apiCallGet_concatenates_pages {α : Type} (kind : String)
    (ps : List (HttpPage α)) (hne : ps ≠ [])
    (hok : ∀ p ∈ ps, p.resp.ok = true ∧ p.body ≠ []) :
    apiCallGet kind (ps ++ [okPage []]) 1
      = (Except.ok ((ps.map HttpPage.body).flatten), ps.length + 1) :=
  apiCallGet_append_empty kind ps [] 1 hok (by omega) (fun h => absurd h hne)

/-- C1 witness: the amended claim at the page sequence of the spec example,
pages one and two non-empty and page three empty: three GETs and the
records in order. -/
theorem apiCallGet_concatenates_pages_witness :
    apiCallGet "labels" ([okPage [1, 2], okPage [3]] ++ [okPage []]) 1
      = (Except.ok ([1, 2, 3] : List Nat), 3) := by
  have h := apiCallGet_concatenates_pages "labels"
    [okPage ([1, 2] : List Nat), okPage [3]] (by simp)
    (by decide)
  simpa using h

/-- C2: over successful responses, the collector rejects with the
no-entries message exactly when the page-1 response body is empty (an
exhausted page sequence stands for the empty response the server gives
past its last page); and when an empty page arrives after a non-empty
run of pages, the call succeeds and returns exactly the records of the
earlier non-empty pages, whatever pages lie beyond the empty one. -/
theorem apiCallGet_empty_page_discipline {α : Type} (kind : String) :
    (∀ pages : List (HttpPage α), (∀ p ∈ pages, p.resp.ok = true) →
        ((apiCallGet kind pages 1).fst = Except.error (noEntriesMsg kind)
          ↔ (pages.headD (okPage [])).body = []))
      ∧ (∀ ps rest : List (HttpPage α), ps ≠ [] →
          (∀ p ∈ ps, p.resp.ok = true ∧ p.body ≠ []) →
          (apiCallGet kind (ps ++ okPage [] :: rest) 1).fst
            = Except.ok ((ps.map HttpPage.body).flatten)) := by
  constructor
  · intro pages hok
    cases pages with
    | nil => simp [apiCallGet, okPage]
    | cons pg rest =>
      have hpg := hok pg (by simp)
      by_cases hb : pg.body.length = 0
      · constructor
        · intro _
          simpa using List.length_eq_zero.mp hb
        · intro _
          simp [apiCallGet, hpg, hb]
      · constructor
        · intro herr
          obtain ⟨l, n, hl⟩ := apiCallGet_ok_of_ge_two kind rest 2 (by omega)
            (fun p hp => hok p (by simp [hp]))
          rw [show (2 : Nat) = 1 + 1 from rfl] at hl
          simp [apiCallGet, hpg, hb, hl] at herr
        · intro hempty
          simp only [List.headD_cons] at hempty
          exact absurd (by simp [hempty]) hb
  · intro ps rest hne hok
    rw [apiCallGet_append_empty kind ps rest 1 hok (by omega)
      (fun h => absurd h hne)]

/-- C2 witness: both parts at concrete inputs: a successful empty first
page rejects with the no-entries message, and an empty second page after a
non-empty first page succeeds with only the page-1 records. -/
theorem apiCallGet_empty_page_discipline_witness :
    (apiCallGet "milestones" [okPage ([] : List Nat)] 1).fst
        = Except.error "No milestones exist in this repository."
      ∧ (apiCallGet "milestones" [okPage ([5] : List Nat), okPage []] 1).fst
        = Except.ok [5] := by
  have h := apiCallGet_empty_page_discipline (α := Nat) "milestones"
  constructor
  · exact (h.1 [okPage []] (by decide)).mpr rfl
  · have h2 := h.2 [okPage [5]] [] (by simp) (by decide)
    simpa using h2

/-- C7: for every form node and both valid kinds, the body of the package
built by packing the serialized entry contains neither an originalName nor
an originalTitle binding. -/
theorem pack_serialize_strips_identity_fields (node : FormNode)
    (kind : String) (tz : Int) (hk : kind = "labels" ∨ kind = "milestones")
    (o : JsObj) (hs : serializeEntry node kind tz = some o) :
    jsLookup (packEntry o kind).fst.body "originalName" = none
      ∧ jsLookup (packEntry o kind).fst.body "originalTitle" = none := by
  rcases hk with hk | hk
  · subst hk
    have hbody : (packEntry o "labels").fst.body = jsDelete o "originalName" :=
      by simp [packEntry]
    refine ⟨?_, ?_⟩
    · rw [hbody]
      exact jsLookup_jsDelete_self o "originalName"
    · rw [hbody,
        jsLookup_jsDelete_ne o "originalTitle" "originalName" (by decide)]
      simp [serializeEntry, validKind] at hs
      rw [← hs]
      simp [jsLookup]
  · subst hk
    have hbody :
        (packEntry o "milestones").fst.body = jsDelete o "originalTitle" := by
      simp [packEntry]
    refine ⟨?_, ?_⟩
    · rw [hbody,
        jsLookup_jsDelete_ne o "originalName" "originalTitle" (by decide)]
      simp [serializeEntry, validKind] at hs
      split_ifs at hs <;> (injection hs with hs2; rw [← hs2]; simp [jsLookup])
    · rw [hbody]
      exact jsLookup_jsDelete_self o "originalTitle"

/-- C7 witness: the property at a concrete label form node; the serialized
entry is computed by evaluation and the identity fields are absent from
the packed body. -/
theorem pack_serialize_strips_identity_fields_witness :
    jsLookup (packEntry [("name", JsVal.str "bug"),
        ("originalName", JsVal.str "bug"), ("color", JsVal.str "d73a4a"),
        ("description", JsVal.str "Something is broken")] "labels").fst.body
        "originalName" = none
      ∧ jsLookup (packEntry [("name", JsVal.str "bug"),
          ("originalName", JsVal.str "bug"), ("color", JsVal.str "d73a4a"),
          ("description", JsVal.str "Something is broken")] "labels").fst.body
          "originalTitle" = none :=
  pack_serialize_strips_identity_fields labelNodeEx "labels" 0
    (Or.inl rfl) _ rfl

/-- C8: calling any of the create, update or delete operations with the
unsupported kind issues fails with the validation error, surfaced as the
only log line, and issues zero network requests: the request list of each
operation is empty. The reason relies on `validKind`, modelled from the
spec because dataValidation.js is not under src. -/
theorem apiCall_mutations_invalid_kind_no_requests (entryNode : FormNode)
    (loginInfo : LoginInfo) (tz : Int) :
    apiCallCreate entryNode "issues" loginInfo tz
        = ([], [validateKindError "issues"])
      ∧ apiCallUpdate entryNode "issues" loginInfo tz
        = ([], [validateKindError "issues"])
      ∧ apiCallDelete entryNode "issues" loginInfo tz
        = ([], [validateKindError "issues"]) :=
  ⟨rfl, rfl, rfl⟩

/-- C9: the status interpreter is a pure mapping on the response: an ok
response maps to the status OK line; a 404 maps to a message containing
Repository not found; 401 and 403 each map to their own message templates,
distinct from one another; and every other non-ok status maps to the
generic error line. -/
theorem composeStatusMessage_classifies :
    (∀ r : Response, r.ok = true →
        composeStatusMessage r = toString r.status ++ " status OK.")
      ∧ (∀ r : Response, r.status = 404 →
          strContains (composeStatusMessage r) "Repository not found" = true)
      ∧ (∀ t : String, composeStatusMessage ⟨401, t⟩
          = toString (401 : Nat) ++ " " ++ t ++ "." ++
            " Please check the input values of your login information.")
      ∧ (∀ t : String, composeStatusMessage ⟨403, t⟩
          = toString (403 : Nat) ++ " " ++ t ++ "." ++
            " The GitHub server refused to your request." ++
            " Maybe you have exceeded your rate limit." ++
            " Please wait for a little while.")
      ∧ composeStatusMessage ⟨401, "Unauthorized"⟩
          ≠ composeStatusMessage ⟨403, "Unauthorized"⟩
      ∧ (∀ r : Response, r.ok = false → r.status ≠ 401 → r.status ≠ 403 →
          r.status ≠ 404 →
          composeStatusMessage r
            = toString r.status ++ " " ++ r.statusText ++ "." ++
              " Error occurred.") := by
  refine ⟨?_, ?_, ?_, ?_, ?_, ?_⟩
  · intro r h
    simp [composeStatusMessage, h]
  · rintro ⟨s, t⟩ rfl
    show strContains ((toString (404 : Nat) ++ " " ++ t ++ "." ++
        " Repository not found. Please check the input values of your") ++
        " login information.") "Repository not found" = true
    apply strContains_append_left
    apply strContains_append_right
    decide
  · intro t
    rfl
  · intro t
    rfl
  · decide
  · rintro ⟨s, t⟩ h h1 h3 h4
    simp only [composeStatusMessage]
    simp at h h1 h3 h4
    simp [h, h1, h3, h4]

/-- C9 witness: the classification at concrete responses: an ok 200, a 404
containing Repository not found, and a 500 with the generic error line. -/
theorem composeStatusMessage_classifies_witness :
    composeStatusMessage ⟨200, "OK"⟩ = "200 status OK."
      ∧ strContains (composeStatusMessage ⟨404, "Not Found"⟩)
          "Repository not found" = true
      ∧ composeStatusMessage ⟨500, "Internal Server Error"⟩
          = "500 Internal Server Error. Error occurred." := by
  have h := composeStatusMessage_classifies
  refine ⟨?_, ?_, ?_⟩
  · exact h.1 ⟨200, "OK"⟩ rfl
  · exact h.2.1 ⟨404, "Not Found"⟩ rfl
  · exact h.2.2.2.2.2 ⟨500, "Internal Server Error"⟩ rfl (by decide)
      (by decide) (by decide)

/-- C10: for every milestone entry carrying a number binding, the packed
body still contains that binding with its original value: the only binding
`packEntry` removes from a milestone body is originalTitle, and from a
label body only originalName; the PATCH request assembled by `fetchUpdate`
therefore serializes a body that includes the stray number key. -/
theorem packEntry_retains_number (o : JsObj) (n : Int)
    (hnum : jsLookup o "number" = some (JsVal.num n))
    (loginInfo : LoginInfo) :
    jsLookup (packEntry o "milestones").fst.body "number"
        = some (JsVal.num n)
      ∧ (packEntry o "milestones").fst.body = jsDelete o "originalTitle"
      ∧ (∀ o2 : JsObj,
          (packEntry o2 "labels").fst.body = jsDelete o2 "originalName")
      ∧ (fetchUpdate urlForUpdate loginInfo "milestones"
            (packEntry o "milestones").fst).body
          = some (jsonBody (jsDelete o "originalTitle"))
      ∧ jsLookup (jsonBody (jsDelete o "originalTitle")) "number"
          = some (JsVal.num n) := by
  have hbody : (packEntry o "milestones").fst.body
      = jsDelete o "originalTitle" := by
    simp [packEntry]
  have hkeep : jsLookup (jsDelete o "originalTitle") "number"
      = some (JsVal.num n) := by
    rw [jsLookup_jsDelete_ne o "number" "originalTitle" (by decide)]
    exact hnum
  refine ⟨?_, hbody, ?_, ?_, ?_⟩
  · rw [hbody]
    exact hkeep
  · intro o2
    simp [packEntry]
  · simp [fetchUpdate, hbody]
  · exact jsLookup_jsonBody _ _ _ hkeep (by simp)

/-- C10 witness: the retained number at a concrete existing-milestone
entry with number 7. -/
theorem packEntry_retains_number_witness :
    jsLookup (packEntry milestoneEntryEx "milestones").fst.body "number"
        = some (JsVal.num 7)
      ∧ jsLookup (jsonBody (jsDelete milestoneEntryEx "originalTitle"))
          "number" = some (JsVal.num 7) :=
  ⟨(packEntry_retains_number milestoneEntryEx 7 rfl loginInfoEx).1,
   (packEntry_retains_number milestoneEntryEx 7 rfl loginInfoEx).2.2.2.2⟩
